import Mathlib

/-!
Shallow embedding of the django-olwidget module `olwidget/admin.py`
(class `GeoModelAdmin`): the methods `get_form`, `get_changelist_map` and
`changelist_view`.

Framework behaviour (Django ModelAdmin, ChangeList construction, GEOS
geometries, formsets) is represented by explicit data handed to the embedded
functions.  Parts of this repository that are referenced by `admin.py` but are
not among the sources at hand (`olwidget.forms`, `olwidget.widgets`,
`olwidget.utils`) are modelled from the spec and marked as such in their doc
comments.
-/

/-! Section: Small dictionary model (Python dict and query-dict operations) -/

/-- Lookup of a key in an association list, first match wins (Python dict
read). -/
def getKey {α : Type} : List (String × α) → String → Option α
  | [], _ => none
  | (k1, v) :: rest, k => if k1 = k then some v else getKey rest k

/-- Write of a key into an association list, replacing the first match in
place or appending (Python dict write, insertion order preserved). -/
def setKey {α : Type} : List (String × α) → String → α → List (String × α)
  | [], k, v => [(k, v)]
  | (k1, v1) :: rest, k, v =>
      if k1 = k then (k, v) :: rest else (k1, v1) :: setKey rest k v

/-- Python `k in d`. -/
def hasKey {α : Type} (l : List (String × α)) (k : String) : Bool :=
  (getKey l k).isSome

/-- Python `dict.update`: every pair of `upd` is written into `base`, later
pairs winning. -/
def updateDict {α : Type} (base upd : List (String × α)) : List (String × α) :=
  upd.foldl (fun d kv => setKey d kv.1 kv.2) base

/-- Python `QueryDict.getlist`: all the values stored under a key. -/
def getlist (l : List (String × String)) (k : String) : List String :=
  (l.filter (fun kv => kv.1 == k)).map (fun kv => kv.2)

/-- A single quote character, used by the hyperlink label of the changelist
map. -/
def squo : String := (Char.ofNat 39).toString

/-! Section: Geometries -/

/-- A GEOS geometry: `coords` stands for the identity of the underlying
shape (reprojection of the coordinates themselves is abstracted away), `srid`
is the spatial reference identifier the geometry currently carries. -/
structure Geom where
  coords : Nat
  srid : Nat
deriving DecidableEq

/-- Embedding of `GEOSGeometry.transform(srid)`: reproject the geometry to the given
spatial reference identifier. -/
def Geom.transform (g : Geom) (srid : Nat) : Geom := { g with srid := srid }

/-- Embedding of `django.contrib.gis.geos.GeometryCollection(geoms, srid=...)`. -/
structure GeometryCollection where
  geoms : List Geom
  srid : Nat
deriving DecidableEq

/-- Modelled from the spec: `DEFAULT_PROJ` from `olwidget.utils` (not among
the sources at hand), the configured target spatial reference identifier, a
numeric string. -/
def DEFAULT_PROJ : String := "900913"

/-- Python `int` on a decimal numeric string: the digits folded into a
number. -/
def strToNat (s : String) : Nat :=
  s.data.foldl (fun n c => n * 10 + (c.toNat - 48)) 0

/-- The value `int(DEFAULT_PROJ)` as evaluated inside `get_changelist_map`. -/
def intDP : Nat := strToNat DEFAULT_PROJ

/-! Section: Model objects -/

/-- The value of a named attribute on a model object, as seen by
`get_changelist_map`: either falsy (None, empty geometry, ...), or a truthy
geometry value, or a truthy callable producing a geometry. -/
inductive AttrVal : Type
  | falsy : AttrVal
  | geom : Geom → AttrVal
  | callable : (Unit → Geom) → AttrVal

/-- Python truthiness of an attribute value: callables and geometry values
are truthy. -/
def AttrVal.truthy : AttrVal → Bool
  | .falsy => false
  | .geom _ => true
  | .callable _ => true

/-- A model instance: its named attributes (Python `getattr`) and its text
representation. -/
structure Obj where
  attrs : String → AttrVal
  text : String

/-- Embedding of `django.utils.encoding.force_text` on a model object. -/
def force_text (o : Obj) : String := o.text

/-! Section: The olwidget InfoMap widget -/

/-- Modelled from the spec: the static media assets of the olwidget map
widget (`olwidget.widgets`, not among the sources at hand). -/
def olwidgetMedia : List String := ["olwidget.css", "olwidget.js"]

/-- Embedding of `olwidget.widgets.InfoMap(info, options=...)`: pairs of a geometry
collection and a popup label, plus widget options. -/
structure InfoMap where
  info : List (GeometryCollection × String)
  options : Option (List (String × String))
deriving DecidableEq

/-- The media of the map widget. -/
def InfoMap.media (_ : InfoMap) : List String := olwidgetMedia

/-! Section: Admin configuration -/

/-- The meta options `model._meta` of a Django model. -/
structure Opts where
  app_label : String
  model_name : String
  verbose_name : String
  verbose_name_plural : String
deriving DecidableEq

/-- The `GeoModelAdmin` instance: its class attributes together with the
inherited ModelAdmin attributes that the embedded methods read.  Attributes
that are only forwarded to abstracted framework calls are not listed. -/
structure GeoAdmin where
  options : Option (List (String × String))
  map_template : String
  list_map : List String
  list_map_options : Option (List (String × String))
  maps : Option (List (List String))
  change_list_template : Option String
  default_field_class : Option String
  opts : Opts
  media : List String
  actions_on_top : Bool
  actions_on_bottom : Bool
  actions_selection_counter : Bool

/-- The class attribute defaults of `GeoModelAdmin` as declared on the class
body (the inherited ModelAdmin attributes are given neutral values). -/
def GeoModelAdmin_defaults (opts : Opts) : GeoAdmin :=
  { options := none
    map_template := "olwidget/admin_olwidget.html"
    list_map := []
    list_map_options := none
    maps := none
    change_list_template := some "admin/olwidget_change_list.html"
    default_field_class := none
    opts := opts
    media := []
    actions_on_top := true
    actions_on_bottom := false
    actions_selection_counter := true }

/-! Section: Forms and get_form -/

/-- A form data dictionary (initial data, cleaned data). -/
abbrev FormData := List (String × String)

/-- A form instance as far as the patched methods touch it. -/
structure Form where
  initial : FormData
  cleaned_data : FormData
deriving DecidableEq

/-- The keymap produced by `apply_maps_to_modelform_fields`: each map field
name paired with the names of the original geometry fields it replaces. -/
abbrev Keymap := List (String × List String)

/-- A (generated) modelform class: its base fields, its constructor effect on
a form instance, its clean method (effect on the instance and returned value)
and the `initial_data_keymap` class attribute, unset on the vanilla class. -/
structure FormClass where
  base_fields : List String
  init : Form → Form
  clean : Form → Form × FormData
  initial_data_keymap : Option Keymap

/-- Modelled from the spec: `apply_maps_to_modelform_fields` from
`olwidget.forms` (not among the sources at hand).  It rearranges the base
fields of the form class, grouping the geometry fields named by `maps` into
single map fields, and returns the keymap from each map field to the names of
the original fields it replaces. -/
def apply_maps_to_modelform_fields (fields : List String)
    (maps : Option (List (List String)))
    (_opts : Option (List (String × String))) (_template : String)
    (_default_field_class : Option String) : List String × Keymap :=
  match maps with
  | none => (fields, fields.map (fun f => (f, [f])))
  | some groups =>
      let grouped := groups.flatten
      let kept := fields.filter (fun f => !(grouped.contains f))
      let mapFields := groups.map (fun g => String.intercalate "_" g)
      (mapFields ++ kept, mapFields.zip groups)

/-- Modelled from the spec: `fix_initial_data` from `olwidget.forms` (not
among the sources at hand).  It injects geometry field initial data: for every
map field of the keymap the initial values of the original fields are
collected under the key of the map field, and the original keys are
dropped. -/
def fix_initial_data (initial : FormData) (keymap : Keymap) : FormData :=
  keymap.foldl (fun ini p =>
    let vals := p.2.filterMap (fun src => getKey ini src)
    let ini := ini.filter (fun kv => !(p.2.contains kv.1))
    setKey ini p.1 (String.intercalate ";" vals)) initial

/-- Modelled from the spec: `fix_cleaned_data` from `olwidget.forms` (not
among the sources at hand).  It extracts geometry field cleaned data: every
map field value is split back onto the original field keys and the map field
key is dropped. -/
def fix_cleaned_data (cleaned : FormData) (keymap : Keymap) : FormData :=
  keymap.foldl (fun cd p =>
    match getKey cd p.1 with
    | none => cd
    | some v =>
        let parts := v.splitOn ";"
        let cd := cd.filter (fun kv => !(kv.1 == p.1))
        updateDict cd (p.2.zip parts)) cleaned

/-- Embedding of `GeoModelAdmin.get_form` (admin.py lines 57 to 88): obtain the vanilla
modelform class from the parent, then dynamically override its constructor and
its clean method, and set `initial_data_keymap` from
`apply_maps_to_modelform_fields` on the base fields. -/
def get_form (self : GeoAdmin) (ModelForm : FormClass) : FormClass :=
  let orig_init := ModelForm.init
  let orig_clean := ModelForm.clean
  let fieldsAndKeymap := apply_maps_to_modelform_fields ModelForm.base_fields
      self.maps self.options self.map_template self.default_field_class
  { base_fields := fieldsAndKeymap.1
    init := fun f =>
      let f := orig_init f
      { f with initial := fix_initial_data f.initial fieldsAndKeymap.2 }
    clean := fun f =>
      let f := (orig_clean f).1
      let f := { f with cleaned_data := fix_cleaned_data f.cleaned_data fieldsAndKeymap.2 }
      (f, f.cleaned_data)
    initial_data_keymap := some fieldsAndKeymap.2 }

/-! Section: The changelist and get_changelist_map -/

/-- An HTTP request, with its query dictionaries flattened to pair lists. -/
structure Request where
  method : String
  path : String
  fullPath : String
  get : List (String × String)
  post : List (String × String)

/-- The constructed ChangeList object, as far as `changelist_view` and
`get_changelist_map` read it. -/
structure CL where
  getQueryset : Option Request → List Obj
  urlForResult : Obj → String
  resultList : List Obj
  resultCount : Nat
  title : String
  isPopup : Bool
  toField : Option String
  opts : Opts
  listEditable : List String

/-- The body of the inner field loop of `get_changelist_map` (admin.py lines
103 to 108): a falsy attribute is skipped, a truthy callable is called with no
argument, and the geometry is appended. -/
def collectStep (obj : Obj) (geoms : List Geom) (field : String) : List Geom :=
  match obj.attrs field with
  | .falsy => geoms
  | .geom g => geoms ++ [g]
  | .callable f => geoms ++ [f ()]

/-- The geometries collected off one object by `get_changelist_map`, before
reprojection. -/
def collectGeoms (list_map : List String) (obj : Obj) : List Geom :=
  list_map.foldl (collectStep obj) []

/-- The resolution of a single listed attribute: skipped when falsy, called
when callable, taken as is when a geometry value. -/
def resolveAttr (obj : Obj) (field : String) : Option Geom :=
  match obj.attrs field with
  | .falsy => none
  | .geom g => some g
  | .callable f => some (f ())

/-- The info entry contributed by one object of the queryset: none when no
listed geometry attribute is truthy, otherwise the geometry collection of the
reprojected geometries paired with the hyperlink label. -/
def entryFor (self : GeoAdmin) (cl : CL) (obj : Obj) :
    Option (GeometryCollection × String) :=
  let geoms := (collectGeoms self.list_map obj).map (fun g => g.transform intDP)
  if geoms.isEmpty then none
  else some ({ geoms := geoms, srid := intDP },
    "<a href=" ++ squo ++ cl.urlForResult obj ++ squo ++ ">" ++ force_text obj ++ "</a>")

/-- The body of the outer object loop of `get_changelist_map` (admin.py lines
100 to 119). -/
def infoStep (self : GeoAdmin) (cl : CL)
    (info : List (GeometryCollection × String)) (obj : Obj) :
    List (GeometryCollection × String) :=
  let geoms := (collectGeoms self.list_map obj).map (fun g => g.transform intDP)
  if geoms.isEmpty then info
  else info ++ [({ geoms := geoms, srid := intDP },
    "<a href=" ++ squo ++ cl.urlForResult obj ++ squo ++ ">" ++ force_text obj ++ "</a>")]

/-- Embedding of `GeoModelAdmin.get_changelist_map` (admin.py lines 90 to 122). -/
def get_changelist_map (self : GeoAdmin) (cl : CL) (request : Option Request) :
    Option InfoMap :=
  if self.list_map.isEmpty then none
  else
    let qs := match request with
      | some r => cl.getQueryset (some r)
      | none => cl.getQueryset none
    let info := qs.foldl (infoStep self cl) []
    some { info := info, options := self.list_map_options }

/-! Section: changelist_view -/

/-- The kind of exception raised while the ChangeList is constructed:
`IncorrectLookupParameters` or any other exception class, identified by
name. -/
inductive ExcKind : Type
  | incorrectLookupParameters : ExcKind
  | other : String → ExcKind
deriving DecidableEq

/-- A changelist formset as produced by the framework `FormSet` calls: its
validation outcome, its Python truthiness and its media. -/
structure FormsetData where
  isValid : Bool
  truthy : Bool
  media : List String
deriving DecidableEq

/-- A value stored in the template context. -/
inductive CtxVal : Type
  | str : String → CtxVal
  | boolV : Bool → CtxVal
  | optStrV : Option String → CtxVal
  | mediaV : List String → CtxVal
  | clV : CL → CtxVal
  | optsV : Opts → CtxVal
  | actionFormV : Option (List String) → CtxVal
  | infoMapV : InfoMap → CtxVal

/-- A template context dictionary. -/
abbrev Ctx := List (String × CtxVal)

/-- The response of the changelist view.  A raised exception is a response
constructor here, so that propagation is observable. -/
inductive Response : Type
  | permissionDenied : Response
  | exception : String → Response
  | simpleTemplate : String → Ctx → Response
  | redirect : String → Response
  | action : Nat → Response
  | template : List String → Ctx → Response

/-- The framework behaviour observed by one call of `changelist_view`: the
results of the inherited ModelAdmin hooks and of the framework constructors,
given as data.  `changeList` is the outcome of `ChangeList(...)` (the
constructor arguments assembled on lines 137 to 153 are consumed by framework
code and are abstracted into this field). -/
structure Env where
  hasChangePermission : Bool
  actions : Bool
  changeList : Except ExcKind CL
  responseAction : Option Nat
  formsetPost : FormsetData
  formsetGet : FormsetData
  actionChoices : List String
  eachContext : Ctx
  hasAddPermission : Bool
  preservedFilters : String

/-- Modelled from the spec: `ERROR_FLAG` of the framework changelist view
(`django.contrib.admin.views.main`). -/
def ERROR_FLAG : String := "e"

/-- Modelled from the spec: `helpers.ACTION_CHECKBOX_NAME` of the
framework. -/
def ACTION_CHECKBOX_NAME : String := "_selected_action"

/-- The framework translation function, abstracted to the identity. -/
def gettext (s : String) : String := s

/-- Line 260: the selection note, with the translation catalog abstracted to
the English text. -/
def selectionNote (cnt : Nat) : String :=
  "0 of " ++ toString cnt ++ " selected"

/-- Lines 254 and 261: `ungettext` picks the singular text exactly for a
count of one. -/
def selectionNoteAll (total : Nat) : String :=
  if total = 1 then toString total ++ " selected"
  else "All " ++ toString total ++ " selected"

/-- Lines 286 to 290: the template list handed to the TemplateResponse. -/
def templateList (self : GeoAdmin) : List String :=
  match self.change_list_template with
  | some t => [t]
  | none =>
      ["admin/" ++ self.opts.app_label ++ "/" ++ self.opts.model_name
         ++ "/change_list.html",
       "admin/" ++ self.opts.app_label ++ "/change_list.html",
       "admin/change_list.html"]

/-- Lines 175 to 188: actions with no confirmation.  Returns the updated
action failed flag, or an early response from `response_action`. -/
def actionsNoConfirm (env : Env) (request : Request) (actions : Bool)
    (selected : List String) : Except Response Bool :=
  if actions && request.method == "POST" && hasKey request.post "index"
      && !(hasKey request.post "_save") then
    if !selected.isEmpty then
      match env.responseAction with
      | some r => .error (.action r)
      | none => .ok true
    else .ok true
  else .ok false

/-- Lines 190 to 199: actions with confirmation. -/
def actionsWithConfirm (env : Env) (request : Request) (actions : Bool)
    (selected : List String) (action_failed : Bool) : Except Response Bool :=
  if actions && request.method == "POST"
      && hasKey request.post ACTION_CHECKBOX_NAME
      && !(hasKey request.post "index") && !(hasKey request.post "_save") then
    if !selected.isEmpty then
      match env.responseAction with
      | some r => .error (.action r)
      | none => .ok true
    else .ok action_failed
  else .ok action_failed

/-- Lines 204 to 239: the changelist formset.  A POSTed bulk edit with a
valid formset saves and redirects to the full path; otherwise the formset is
kept for display when the changelist is editable.  The save side effects and
the success message are not part of the modelled state. -/
def changelistFormset (env : Env) (request : Request) (cl : CL)
    (action_failed : Bool) : Except Response (Option FormsetData) :=
  if request.method == "POST" && !cl.listEditable.isEmpty
      && hasKey request.post "_save" && !action_failed then
    if env.formsetPost.isValid then .error (.redirect request.fullPath)
    else .ok (some env.formsetPost)
  else if !cl.listEditable.isEmpty then .ok (some env.formsetGet)
  else .ok none

/-- Lines 257 to 274: the keyword pairs of the context dictionary, in
order. -/
def contextPairs (self : GeoAdmin) (env : Env) (cl : CL) (media : List String)
    (action_form : Option (List String)) : Ctx :=
  [("module_name", .str self.opts.verbose_name_plural),
   ("selection_note", .str (selectionNote cl.resultList.length)),
   ("selection_note_all", .str (selectionNoteAll cl.resultCount)),
   ("title", .str cl.title),
   ("is_popup", .boolV cl.isPopup),
   ("to_field", .optStrV cl.toField),
   ("cl", .clV cl),
   ("media", .mediaV media),
   ("has_add_permission", .boolV env.hasAddPermission),
   ("opts", .optsV cl.opts),
   ("action_form", .actionFormV action_form),
   ("actions_on_top", .boolV self.actions_on_top),
   ("actions_on_bottom", .boolV self.actions_on_bottom),
   ("actions_selection_counter", .boolV self.actions_selection_counter),
   ("preserved_filters", .str env.preservedFilters)]

/-- Lines 241 to 275: the media of the page, the action form and the template
context, updated with the extra context. -/
def buildContext (self : GeoAdmin) (env : Env) (cl : CL)
    (formset : Option FormsetData) (actions : Bool)
    (extraContext : Option Ctx) : Ctx :=
  let media := match formset with
    | some fs => if fs.truthy then self.media ++ fs.media else self.media
    | none => self.media
  let action_form : Option (List String) :=
    if actions then some env.actionChoices else none
  let context := updateDict env.eachContext
      (contextPairs self env cl media action_form)
  updateDict context (extraContext.getD [])

/-- Lines 168 to 275 of `changelist_view`: everything after the ChangeList
has been constructed, up to the finished template context.  Early returns are
the error case. -/
def changelist_after_cl (self : GeoAdmin) (env : Env) (request : Request)
    (extraContext : Option Ctx) (cl : CL) : Except Response Ctx :=
  match actionsNoConfirm env request env.actions
      (getlist request.post ACTION_CHECKBOX_NAME) with
  | .error r => .error r
  | .ok action_failed =>
    match actionsWithConfirm env request env.actions
        (getlist request.post ACTION_CHECKBOX_NAME) action_failed with
    | .error r => .error r
    | .ok action_failed =>
      match changelistFormset env request cl action_failed with
      | .error r => .error r
      | .ok formset =>
          .ok (buildContext self env cl formset env.actions extraContext)

/-- Lines 130 to 275 of `changelist_view`: the permission check, the guarded
ChangeList construction with its except clause, then the rest of the view up
to the finished context.  Early returns are the error case. -/
def changelist_common (self : GeoAdmin) (env : Env) (request : Request)
    (extraContext : Option Ctx) : Except Response (CL × Ctx) :=
  if !env.hasChangePermission then .error .permissionDenied
  else
    match env.changeList with
    | .error .incorrectLookupParameters =>
        if hasKey request.get ERROR_FLAG then
          .error (.simpleTemplate "admin/invalid_setup.html"
            [("title", .str (gettext "Database error"))])
        else .error (.redirect (request.path ++ "?" ++ ERROR_FLAG ++ "=1"))
    | .error (.other name) => .error (.exception name)
    | .ok cl =>
        match changelist_after_cl self env request extraContext cl with
        | .error r => .error r
        | .ok context => .ok (cl, context)

/-- Lines 277 to 282, the modification block: merge the media of the map into
the media of the context and store the map under the key map.  An InfoMap
instance is always truthy. -/
def addMapToContext (context : Ctx) (m : InfoMap) : Ctx :=
  let context := match getKey context "media" with
    | some (.mediaV l) => setKey context "media" (.mediaV (l ++ m.media))
    | _ => context
  setKey context "map" (.infoMapV m)

/-- Embedding of `GeoModelAdmin.changelist_view` (admin.py lines 124 to 290). -/
def changelist_view (self : GeoAdmin) (env : Env) (request : Request)
    (extraContext : Option Ctx) : Response :=
  match changelist_common self env request extraContext with
  | .error r => r
  | .ok (cl, context) =>
      let context := match get_changelist_map self cl none with
        | some m => addMapToContext context m
        | none => context
      .template (templateList self) context

/-- Modelled from the spec: the changelist view of the parent ModelAdmin, of
which `changelist_view` is, per the spec and the comment in the source, a near
verbatim copy without the modification block. -/
def parent_changelist_view (self : GeoAdmin) (env : Env) (request : Request)
    (extraContext : Option Ctx) : Response :=
  match changelist_common self env request extraContext with
  | .error r => r
  | .ok (_, context) => .template (templateList self) context

/-- The changelist map the view would attach, given the framework data. -/
def mapFor (self : GeoAdmin) (env : Env) : Option InfoMap :=
  match env.changeList with
  | .ok cl => get_changelist_map self cl none
  | .error _ => none

/-! Section: Concrete sample data -/

/-- Sample model meta data. -/
def sampleOpts : Opts :=
  { app_label := "testapp", model_name := "place",
    verbose_name := "place", verbose_name_plural := "places" }

/-- A sample geometry in a source projection. -/
def geomA : Geom := { coords := 1, srid := 4326 }

/-- A second sample geometry in another source projection. -/
def geomB : Geom := { coords := 2, srid := 27700 }

/-- A sample object with one plain geometry attribute and one callable
geometry attribute. -/
def objWithGeoms : Obj :=
  { attrs := fun f =>
      if f = "location" then .geom geomA
      else if f = "route" then .callable (fun _ => geomB)
      else .falsy,
    text := "first" }

/-- A sample object all of whose attributes are falsy. -/
def objNoGeoms : Obj := { attrs := fun _ => .falsy, text := "second" }

/-- A sample ChangeList over the two sample objects. -/
def sampleCL : CL :=
  { getQueryset := fun _ => [objWithGeoms, objNoGeoms],
    urlForResult := fun o => "/admin/testapp/place/" ++ o.text,
    resultList := [objWithGeoms, objNoGeoms],
    resultCount := 2,
    title := "Select place",
    isPopup := false,
    toField := none,
    opts := sampleOpts,
    listEditable := [] }

/-- A sample admin with two listed map fields. -/
def sampleAdmin : GeoAdmin :=
  { GeoModelAdmin_defaults sampleOpts with
    list_map := ["location", "route"],
    media := ["admin.css"] }

/-- A sample formset result. -/
def sampleFormset : FormsetData :=
  { isValid := false, truthy := false, media := [] }

/-- A plain GET request for the changelist page. -/
def sampleRequest : Request :=
  { method := "GET", path := "/admin/testapp/place/",
    fullPath := "/admin/testapp/place/", get := [], post := [] }

/-- A GET request that already carries the error flag. -/
def requestWithFlag : Request :=
  { sampleRequest with get := [(ERROR_FLAG, "1")] }

/-- The framework data of an untroubled GET: permission granted, no actions,
ChangeList constructed. -/
def sampleEnv : Env :=
  { hasChangePermission := true, actions := false,
    changeList := .ok sampleCL, responseAction := none,
    formsetPost := sampleFormset, formsetGet := sampleFormset,
    actionChoices := [], eachContext := [], hasAddPermission := true,
    preservedFilters := "" }

/-- Framework data where the ChangeList constructor raises an exception other
than IncorrectLookupParameters. -/
def envOtherExc : Env :=
  { sampleEnv with changeList := .error (.other "ValueError") }

/-- Framework data where the ChangeList constructor raises
IncorrectLookupParameters. -/
def envBadLookup : Env :=
  { sampleEnv with changeList := .error .incorrectLookupParameters }

/-- The geometry collection contributed by the sample object. -/
def sampleColl : GeometryCollection :=
  { geoms := [{ coords := 1, srid := intDP }, { coords := 2, srid := intDP }],
    srid := intDP }

/-- The popup label contributed by the sample object. -/
def sampleLabel : String :=
  "<a href=" ++ squo ++ "/admin/testapp/place/first" ++ squo ++ ">first</a>"

/-- The changelist map of the sample data. -/
def sampleMap : InfoMap :=
  { info := [(sampleColl, sampleLabel)], options := none }

/-- The context rendered by the sample view call. -/
def sampleCtx : Ctx :=
  match changelist_view sampleAdmin sampleEnv sampleRequest (some []) with
  | .template _ ctx => ctx
  | _ => []

/-- A sample form instance. -/
def sampleForm : Form :=
  { initial := [("location", "POINT(1 1)")],
    cleaned_data := [("location", "POINT(1 1)")] }

/-- A vanilla modelform class whose clean returns the cleaned data of the
form. -/
def sampleMF : FormClass :=
  { base_fields := ["location"],
    init := fun f => f,
    clean := fun f => (f, f.cleaned_data),
    initial_data_keymap := none }

/-- The same modelform class except that its clean returns a different
dictionary than the cleaned data attribute. -/
def sampleMF2 : FormClass :=
  { sampleMF with clean := fun f => (f, [("other", "ignored")]) }

/-! Section: Dictionary lemmas -/

theorem getKey_setKey_self {α : Type} (l : List (String × α)) (k : String)
    (v : α) : getKey (setKey l k v) k = some v := by
  induction l with
  | nil => simp [setKey, getKey]
  | cons p rest ih =>
      obtain ⟨k1, v1⟩ := p
      by_cases h : k1 = k <;> simp [setKey, getKey, h, ih]

theorem getKey_setKey_ne {α : Type} (l : List (String × α)) (k k2 : String)
    (v : α) (h : k2 ≠ k) : getKey (setKey l k v) k2 = getKey l k2 := by
  have hk : ¬(k = k2) := fun e => h e.symm
  induction l with
  | nil => simp [setKey, getKey, hk]
  | cons p rest ih =>
      obtain ⟨k1, v1⟩ := p
      by_cases h1 : k1 = k
      · subst h1
        simp [setKey, getKey, hk]
      · simp only [setKey, getKey, if_neg h1]
        by_cases h2 : k1 = k2 <;> simp [getKey, h2, ih]

theorem updateDict_cons {α : Type} (base : List (String × α)) (p : String × α)
    (rest : List (String × α)) :
    updateDict base (p :: rest) = updateDict (setKey base p.1 p.2) rest := rfl

theorem hasKey_cons_false {α : Type} (p : String × α)
    (rest : List (String × α)) (k : String)
    (h : hasKey (p :: rest) k = false) :
    p.1 ≠ k ∧ hasKey rest k = false := by
  obtain ⟨k1, v1⟩ := p
  by_cases h1 : k1 = k
  · simp [hasKey, getKey, h1] at h
  · refine ⟨h1, ?_⟩
    simpa [hasKey, getKey, h1] using h

theorem getKey_updateDict_notMem {α : Type} (base l : List (String × α))
    (k : String) (h : hasKey l k = false) :
    getKey (updateDict base l) k = getKey base k := by
  induction l generalizing base with
  | nil => rfl
  | cons p rest ih =>
      obtain ⟨h1, h2⟩ := hasKey_cons_false p rest k h
      rw [updateDict_cons, ih (setKey base p.1 p.2) h2]
      exact getKey_setKey_ne base p.1 k p.2 (fun e => h1 e.symm)

theorem getKey_updateDict_cases {α : Type} (base l : List (String × α))
    (k : String) :
    getKey (updateDict base l) k = getKey base k ∨
    ∃ v, getKey (updateDict base l) k = some v ∧ (k, v) ∈ l := by
  induction l generalizing base with
  | nil => exact Or.inl rfl
  | cons p rest ih =>
      rcases ih (setKey base p.1 p.2) with h | ⟨v, hv, hmem⟩
      · by_cases hk : p.1 = k
        · right
          refine ⟨p.2, ?_, ?_⟩
          · rw [updateDict_cons, h, hk]
            exact getKey_setKey_self base k p.2
          · subst hk
            exact List.mem_cons_self _ _
        · left
          rw [updateDict_cons, h]
          exact getKey_setKey_ne base p.1 k p.2 (fun e => hk e.symm)
      · right
        exact ⟨v, by rw [updateDict_cons]; exact hv, List.mem_cons_of_mem p hmem⟩

theorem getKey_updateDict_last {α : Type} (base l1 l2 : List (String × α))
    (k : String) (v : α) (h : hasKey l2 k = false) :
    getKey (updateDict base (l1 ++ (k, v) :: l2)) k = some v := by
  have e1 : updateDict base (l1 ++ (k, v) :: l2)
      = updateDict (setKey (updateDict base l1) k v) l2 := by
    simp [updateDict, List.foldl_append]
  rw [e1, getKey_updateDict_notMem _ _ _ h]
  exact getKey_setKey_self _ k v

/-! Section: get_changelist_map lemmas -/

theorem collectStep_eq (obj : Obj) (geoms : List Geom) (field : String) :
    collectStep obj geoms field =
      match resolveAttr obj field with
      | some g => geoms ++ [g]
      | none => geoms := by
  cases h : obj.attrs field <;> simp [collectStep, resolveAttr, h]

theorem foldl_collect_eq (obj : Obj) (l : List String) (acc : List Geom) :
    l.foldl (collectStep obj) acc = acc ++ l.filterMap (resolveAttr obj) := by
  induction l generalizing acc with
  | nil => simp
  | cons f rest ih =>
      rw [List.foldl_cons, ih, collectStep_eq]
      cases h : resolveAttr obj f <;> simp [h]

theorem collectGeoms_eq_filterMap (list_map : List String) (obj : Obj) :
    collectGeoms list_map obj = list_map.filterMap (resolveAttr obj) := by
  simpa using foldl_collect_eq obj list_map []

theorem infoStep_eq (self : GeoAdmin) (cl : CL)
    (info : List (GeometryCollection × String)) (obj : Obj) :
    infoStep self cl info obj =
      match entryFor self cl obj with
      | some e => info ++ [e]
      | none => info := by
  unfold infoStep entryFor
  by_cases h : ((collectGeoms self.list_map obj).map
      (fun g => g.transform intDP)).isEmpty <;> simp [h]

theorem foldl_info_eq (self : GeoAdmin) (cl : CL) (qs : List Obj)
    (acc : List (GeometryCollection × String)) :
    qs.foldl (infoStep self cl) acc = acc ++ qs.filterMap (entryFor self cl) := by
  induction qs generalizing acc with
  | nil => simp
  | cons obj rest ih =>
      rw [List.foldl_cons, ih, infoStep_eq]
      cases h : entryFor self cl obj <;> simp [h]

/-- The changelist map, characterised: when the list map is configured, its
info entries are exactly the entries contributed object by object by the
queryset. -/
theorem get_changelist_map_info (self : GeoAdmin) (cl : CL)
    (request : Option Request) (h : self.list_map.isEmpty = false) :
    get_changelist_map self cl request =
      some { info := (match request with
                      | some r => cl.getQueryset (some r)
                      | none => cl.getQueryset none).filterMap (entryFor self cl),
             options := self.list_map_options } := by
  unfold get_changelist_map
  rw [h]
  cases request <;> simp [foldl_info_eq]

theorem entryFor_some_of_truthy (self : GeoAdmin) (cl : CL) (obj : Obj)
    (htruthy : ∃ f ∈ self.list_map, (obj.attrs f).truthy = true) :
    entryFor self cl obj =
      some ({ geoms := (collectGeoms self.list_map obj).map
                (fun g => g.transform intDP), srid := intDP },
            "<a href=" ++ squo ++ cl.urlForResult obj ++ squo ++ ">"
              ++ force_text obj ++ "</a>") := by
  obtain ⟨f, hf, ht⟩ := htruthy
  have hres : (resolveAttr obj f).isSome := by
    cases h : obj.attrs f <;> simp [resolveAttr, AttrVal.truthy, h] <;>
      simp [AttrVal.truthy, h] at ht
  have hmem : ∃ g, g ∈ collectGeoms self.list_map obj := by
    rw [collectGeoms_eq_filterMap]
    cases h : resolveAttr obj f with
    | none => rw [h] at hres; simp at hres
    | some g => exact ⟨g, List.mem_filterMap.mpr ⟨f, hf, h⟩⟩
  obtain ⟨g, hg⟩ := hmem
  have hne : ((collectGeoms self.list_map obj).map
      (fun g => g.transform intDP)).isEmpty = false := by
    cases hc : collectGeoms self.list_map obj with
    | nil => rw [hc] at hg; simp at hg
    | cons a rest => simp [hc, List.isEmpty]
  simp [entryFor, hne]

theorem entryFor_none_of_falsy (self : GeoAdmin) (cl : CL) (obj : Obj)
    (hfalsy : ∀ f ∈ self.list_map, (obj.attrs f).truthy = false) :
    entryFor self cl obj = none := by
  have hnil : collectGeoms self.list_map obj = [] := by
    rw [collectGeoms_eq_filterMap]
    rw [List.filterMap_eq_nil_iff]
    intro f hf
    have := hfalsy f hf
    cases h : obj.attrs f <;> simp [resolveAttr, h] <;>
      simp [AttrVal.truthy, h] at this
  simp [entryFor, hnil]

/-! Section: Claims about get_changelist_map -/

/-- C1: for every object of the changelist queryset with at least one listed
geometry attribute of truthy value, `get_changelist_map` produces exactly one
info entry for it, pairing a single geometry collection with srid
`int(DEFAULT_PROJ)` that holds all collected geometries of the object with a
hyperlink label whose href is `cl.url_for_result(obj)` and whose text is
`force_text(obj)`.  The info list is the per object `entryFor` image of the
queryset, and the entry of a qualifying object is exactly one pair of this
shape. -/
theorem C1_one_entry_per_qualifying_object (self : GeoAdmin) (cl : CL)
    (obj : Obj)
    (hlm : self.list_map.isEmpty = false)
    (hmem : obj ∈ cl.getQueryset none)
    (htruthy : ∃ f ∈ self.list_map, (obj.attrs f).truthy = true) :
    get_changelist_map self cl none =
      some { info := (cl.getQueryset none).filterMap (entryFor self cl),
             options := self.list_map_options } ∧
    entryFor self cl obj =
      some ({ geoms := (collectGeoms self.list_map obj).map
                (fun g => g.transform intDP), srid := intDP },
            "<a href=" ++ squo ++ cl.urlForResult obj ++ squo ++ ">"
              ++ force_text obj ++ "</a>") :=
  ⟨get_changelist_map_info self cl none hlm,
   entryFor_some_of_truthy self cl obj htruthy⟩

/-- C1 witness: the sample object with a plain geometry and a callable
geometry qualifies and contributes its one entry. -/
theorem C1_witness :
    get_changelist_map sampleAdmin sampleCL none =
      some { info := (sampleCL.getQueryset none).filterMap
               (entryFor sampleAdmin sampleCL),
             options := sampleAdmin.list_map_options } ∧
    entryFor sampleAdmin sampleCL objWithGeoms =
      some ({ geoms := (collectGeoms sampleAdmin.list_map objWithGeoms).map
                (fun g => g.transform intDP), srid := intDP },
            "<a href=" ++ squo ++ sampleCL.urlForResult objWithGeoms ++ squo
              ++ ">" ++ force_text objWithGeoms ++ "</a>") :=
  C1_one_entry_per_qualifying_object sampleAdmin sampleCL objWithGeoms rfl
    (show objWithGeoms ∈ [objWithGeoms, objNoGeoms] from List.mem_cons_self _ _)
    ⟨"location",
     show "location" ∈ ["location", "route"] from List.mem_cons_self _ _,
     rfl⟩

/-- C3: an object of the queryset all of whose listed geometry attributes are
falsy contributes no info entry: its `entryFor` is none, and the info list is
the `entryFor` image of the queryset, so the object adds nothing to the
list view map. -/
theorem C3_falsy_object_contributes_nothing (self : GeoAdmin) (cl : CL)
    (obj : Obj)
    (hlm : self.list_map.isEmpty = false)
    (hmem : obj ∈ cl.getQueryset none)
    (hfalsy : ∀ f ∈ self.list_map, (obj.attrs f).truthy = false) :
    entryFor self cl obj = none ∧
    get_changelist_map self cl none =
      some { info := (cl.getQueryset none).filterMap (entryFor self cl),
             options := self.list_map_options } :=
  ⟨entryFor_none_of_falsy self cl obj hfalsy,
   get_changelist_map_info self cl none hlm⟩

/-- C3 witness: the sample object with only falsy attributes contributes
nothing. -/
theorem C3_witness :
    entryFor sampleAdmin sampleCL objNoGeoms = none ∧
    get_changelist_map sampleAdmin sampleCL none =
      some { info := (sampleCL.getQueryset none).filterMap
               (entryFor sampleAdmin sampleCL),
             options := sampleAdmin.list_map_options } :=
  C3_falsy_object_contributes_nothing sampleAdmin sampleCL objNoGeoms rfl
    (show objNoGeoms ∈ [objWithGeoms, objNoGeoms] from
      List.mem_cons_of_mem _ (List.mem_cons_self _ _))
    (fun _ _ => rfl)

/-- C4: every geometry of an info entry of the changelist map was transformed
to `int(DEFAULT_PROJ)` before the grouping into the geometry collection, and
the collection carries that same spatial reference identifier. -/
theorem C4_transformed_before_grouping (self : GeoAdmin) (cl : CL)
    (request : Option Request) (m : InfoMap) (coll : GeometryCollection)
    (label : String)
    (hm : get_changelist_map self cl request = some m)
    (hmem : (coll, label) ∈ m.info) :
    coll.srid = intDP ∧
    (∀ g ∈ coll.geoms, g.srid = intDP) ∧
    ∃ obj, obj ∈ (match request with
                  | some r => cl.getQueryset (some r)
                  | none => cl.getQueryset none) ∧
      coll.geoms = (collectGeoms self.list_map obj).map
        (fun g => g.transform intDP) := by
  cases hlm : self.list_map.isEmpty with
  | true =>
      unfold get_changelist_map at hm
      rw [hlm] at hm
      cases hm
  | false =>
      rw [get_changelist_map_info self cl request hlm] at hm
      obtain rfl : _ = m := Option.some.inj hm
      obtain ⟨obj, hobj, hentry⟩ := List.mem_filterMap.mp hmem
      simp only [entryFor] at hentry
      split at hentry
      · cases hentry
      · obtain ⟨hcoll, hlabel⟩ := Prod.mk.inj (Option.some.inj hentry)
        refine ⟨?_, ?_, obj, hobj, ?_⟩
        · rw [← hcoll]
        · intro g hg
          rw [← hcoll] at hg
          obtain ⟨g0, hg0, rfl⟩ := List.mem_map.mp hg
          rfl
        · rw [← hcoll]

/-- C4 witness: the entry of the sample map carries the target srid on the
collection and on each geometry. -/
theorem C4_witness :
    sampleColl.srid = intDP ∧
    (∀ g ∈ sampleColl.geoms, g.srid = intDP) ∧
    ∃ obj, obj ∈ (match (none : Option Request) with
                  | some r => sampleCL.getQueryset (some r)
                  | none => sampleCL.getQueryset none) ∧
      sampleColl.geoms = (collectGeoms sampleAdmin.list_map obj).map
        (fun g => g.transform intDP) :=
  C4_transformed_before_grouping sampleAdmin sampleCL none sampleMap
    sampleColl sampleLabel (by decide)
    (show (sampleColl, sampleLabel) ∈ [(sampleColl, sampleLabel)] from
      List.mem_cons_self _ _)

/-- C8: a truthy callable among the listed geometry attributes is called with
no argument and the result of the call is the collected geometry: it is the
resolution of the field, and it is among the collected geometries, which are
exactly the resolutions of the listed fields. -/
theorem C8_callable_resolved (self : GeoAdmin) (obj : Obj) (field : String)
    (f0 : Unit → Geom)
    (hfield : field ∈ self.list_map)
    (hcall : obj.attrs field = .callable f0) :
    resolveAttr obj field = some (f0 ()) ∧
    collectGeoms self.list_map obj = self.list_map.filterMap (resolveAttr obj) ∧
    f0 () ∈ collectGeoms self.list_map obj := by
  have h1 : resolveAttr obj field = some (f0 ()) := by
    simp [resolveAttr, hcall]
  refine ⟨h1, collectGeoms_eq_filterMap _ _, ?_⟩
  rw [collectGeoms_eq_filterMap]
  exact List.mem_filterMap.mpr ⟨field, hfield, h1⟩

/-- C8 witness: the callable sample attribute is resolved to its result. -/
theorem C8_witness :
    resolveAttr objWithGeoms "route" = some ((fun _ => geomB) ()) ∧
    collectGeoms sampleAdmin.list_map objWithGeoms =
      sampleAdmin.list_map.filterMap (resolveAttr objWithGeoms) ∧
    (fun _ => geomB) () ∈ collectGeoms sampleAdmin.list_map objWithGeoms :=
  C8_callable_resolved sampleAdmin objWithGeoms "route" (fun _ => geomB)
    (show "route" ∈ ["location", "route"] from
      List.mem_cons_of_mem _ (List.mem_cons_self _ _))
    rfl

/-! Section: Claims about get_form -/

/-- C6: `get_form` hands back the generated modelform class with its
constructor and its validation dynamically patched: the patched constructor
runs the original constructor and then applies `fix_initial_data` to the
initial data with the keymap, the patched clean runs the original clean and
then applies `fix_cleaned_data` to the cleaned data and returns it, and
`initial_data_keymap` is the keymap computed by
`apply_maps_to_modelform_fields` on the base fields of the class. -/
theorem C6_get_form_patches (self : GeoAdmin) (MF : FormClass) (f : Form) :
    (get_form self MF).initial_data_keymap =
      some (apply_maps_to_modelform_fields MF.base_fields self.maps
        self.options self.map_template self.default_field_class).2 ∧
    (get_form self MF).base_fields =
      (apply_maps_to_modelform_fields MF.base_fields self.maps
        self.options self.map_template self.default_field_class).1 ∧
    (get_form self MF).init f =
      { MF.init f with
        initial := fix_initial_data (MF.init f).initial
          (apply_maps_to_modelform_fields MF.base_fields self.maps
            self.options self.map_template self.default_field_class).2 } ∧
    (get_form self MF).clean f =
      ({ (MF.clean f).1 with
         cleaned_data := fix_cleaned_data (MF.clean f).1.cleaned_data
           (apply_maps_to_modelform_fields MF.base_fields self.maps
             self.options self.map_template self.default_field_class).2 },
       fix_cleaned_data (MF.clean f).1.cleaned_data
         (apply_maps_to_modelform_fields MF.base_fields self.maps
           self.options self.map_template self.default_field_class).2) :=
  ⟨rfl, rfl, rfl, rfl⟩

/-- C9: the patched clean always returns the cleaned data attribute of the
form and discards the value returned by the original clean: for any two
classes whose original cleans have the same effect on the form instance, the
patched cleans agree, whatever the original cleans returned. -/
theorem C9_clean_returns_cleaned_data (self : GeoAdmin) (MF MF2 : FormClass)
    (f : Form)
    (hbf : MF2.base_fields = MF.base_fields)
    (hsame : (MF2.clean f).1 = (MF.clean f).1) :
    ((get_form self MF).clean f).2 = ((get_form self MF).clean f).1.cleaned_data ∧
    (get_form self MF2).clean f = (get_form self MF).clean f := by
  constructor
  · rfl
  · simp only [get_form, hbf, hsame]

/-- C9 witness: a class whose original clean returns a dictionary different
from the cleaned data attribute gets the same patched clean as the class that
returns the cleaned data, and the patched clean returns the cleaned data
attribute. -/
theorem C9_witness :
    (sampleMF2.clean sampleForm).2 ≠ (sampleMF.clean sampleForm).2 ∧
    (((get_form sampleAdmin sampleMF).clean sampleForm).2 =
       ((get_form sampleAdmin sampleMF).clean sampleForm).1.cleaned_data ∧
     (get_form sampleAdmin sampleMF2).clean sampleForm =
       (get_form sampleAdmin sampleMF).clean sampleForm) :=
  ⟨by decide,
   C9_clean_returns_cleaned_data sampleAdmin sampleMF sampleMF2 sampleForm
     rfl rfl⟩

/-! Section: changelist_view lemmas -/

theorem hasKey_false_getKey_none {α : Type} (l : List (String × α)) (k : String)
    (h : hasKey l k = false) : getKey l k = none := by
  unfold hasKey at h
  cases hg : getKey l k with
  | none => rfl
  | some v => rw [hg] at h; exact Bool.noConfusion h

theorem actionsNoConfirm_error (env : Env) (request : Request) (a : Bool)
    (s : List String) (r : Response)
    (h : actionsNoConfirm env request a s = .error r) : ∃ n, r = .action n := by
  unfold actionsNoConfirm at h
  split at h
  · split at h
    · split at h
      · exact ⟨_, (Except.error.inj h).symm⟩
      · cases h
    · cases h
  · cases h

theorem actionsWithConfirm_error (env : Env) (request : Request) (a : Bool)
    (s : List String) (af : Bool) (r : Response)
    (h : actionsWithConfirm env request a s af = .error r) :
    ∃ n, r = .action n := by
  unfold actionsWithConfirm at h
  split at h
  · split at h
    · split at h
      · exact ⟨_, (Except.error.inj h).symm⟩
      · cases h
    · cases h
  · cases h

theorem changelistFormset_error (env : Env) (request : Request) (cl : CL)
    (af : Bool) (r : Response)
    (h : changelistFormset env request cl af = .error r) :
    r = .redirect request.fullPath := by
  unfold changelistFormset at h
  split at h
  · split at h
    · exact ((Except.error.inj h)).symm
    · cases h
  · split at h
    · cases h
    · cases h

theorem after_cl_error_shape (self : GeoAdmin) (env : Env) (request : Request)
    (extra : Option Ctx) (cl : CL) (r : Response)
    (h : changelist_after_cl self env request extra cl = .error r) :
    (∃ n, r = .action n) ∨ r = .redirect request.fullPath := by
  unfold changelist_after_cl at h
  split at h
  · next heq =>
      obtain rfl : _ = r := Except.error.inj h
      exact Or.inl (actionsNoConfirm_error _ _ _ _ _ heq)
  · split at h
    · next heq =>
        obtain rfl : _ = r := Except.error.inj h
        exact Or.inl (actionsWithConfirm_error _ _ _ _ _ _ heq)
    · split at h
      · next heq =>
          obtain rfl : _ = r := Except.error.inj h
          exact Or.inr (changelistFormset_error _ _ _ _ _ heq)
      · cases h

theorem after_cl_ok_shape (self : GeoAdmin) (env : Env) (request : Request)
    (extra : Option Ctx) (cl : CL) (ctx : Ctx)
    (h : changelist_after_cl self env request extra cl = .ok ctx) :
    ∃ formset, ctx = buildContext self env cl formset env.actions extra := by
  unfold changelist_after_cl at h
  split at h
  · cases h
  · split at h
    · cases h
    · split at h
      · cases h
      · exact ⟨_, (Except.ok.inj h).symm⟩

theorem common_ok_shape (self : GeoAdmin) (env : Env) (request : Request)
    (extra : Option Ctx) (cl : CL) (ctx : Ctx)
    (h : changelist_common self env request extra = .ok (cl, ctx)) :
    env.hasChangePermission = true ∧ env.changeList = .ok cl ∧
    changelist_after_cl self env request extra cl = .ok ctx := by
  unfold changelist_common at h
  split at h
  · cases h
  · next hperm =>
      split at h
      · split at h
        · cases h
        · cases h
      · cases h
      · next cl0 heq =>
          split at h
          · cases h
          · next ctx0 heq2 =>
              obtain ⟨h1, h2⟩ := Prod.mk.inj (Except.ok.inj h)
              subst h1
              subst h2
              exact ⟨by simpa using hperm, heq, heq2⟩

theorem common_error_shape (self : GeoAdmin) (env : Env) (request : Request)
    (extra : Option Ctx) (r : Response)
    (h : changelist_common self env request extra = .error r) :
    ∀ ts ctx, r ≠ .template ts ctx := by
  intro ts ctx
  unfold changelist_common at h
  split at h
  · obtain rfl : _ = r := Except.error.inj h
    exact fun hc => Response.noConfusion hc
  · split at h
    · split at h
      · obtain rfl : _ = r := Except.error.inj h
        exact fun hc => Response.noConfusion hc
      · obtain rfl : _ = r := Except.error.inj h
        exact fun hc => Response.noConfusion hc
    · obtain rfl : _ = r := Except.error.inj h
      exact fun hc => Response.noConfusion hc
    · split at h
      · next heq =>
          obtain rfl : _ = r := Except.error.inj h
          rcases after_cl_error_shape _ _ _ _ _ _ heq with ⟨n, rfl⟩ | rfl
          · exact fun hc => Response.noConfusion hc
          · exact fun hc => Response.noConfusion hc
      · cases h

theorem buildContext_eq (self : GeoAdmin) (env : Env) (cl : CL)
    (formset : Option FormsetData) (actions : Bool) (extra : Ctx) :
    buildContext self env cl formset actions (some extra) =
      updateDict (updateDict env.eachContext
        (contextPairs self env cl
          (match formset with
           | some fs => if fs.truthy then self.media ++ fs.media else self.media
           | none => self.media)
          (if actions then some env.actionChoices else none))) extra := rfl

theorem contextPairs_split (self : GeoAdmin) (env : Env) (cl : CL)
    (media : List String) (af : Option (List String)) :
    contextPairs self env cl media af =
      [("module_name", .str self.opts.verbose_name_plural),
       ("selection_note", .str (selectionNote cl.resultList.length)),
       ("selection_note_all", .str (selectionNoteAll cl.resultCount)),
       ("title", .str cl.title),
       ("is_popup", .boolV cl.isPopup),
       ("to_field", .optStrV cl.toField),
       ("cl", .clV cl)] ++
      ("media", .mediaV media) ::
      [("has_add_permission", .boolV env.hasAddPermission),
       ("opts", .optsV cl.opts),
       ("action_form", .actionFormV af),
       ("actions_on_top", .boolV self.actions_on_top),
       ("actions_on_bottom", .boolV self.actions_on_bottom),
       ("actions_selection_counter", .boolV self.actions_selection_counter),
       ("preserved_filters", .str env.preservedFilters)] := rfl

theorem getKey_contextPairs_update_media (base : Ctx) (self : GeoAdmin)
    (env : Env) (cl : CL) (media : List String) (af : Option (List String)) :
    getKey (updateDict base (contextPairs self env cl media af)) "media"
      = some (.mediaV media) := by
  rw [contextPairs_split]
  exact getKey_updateDict_last base _ _ "media" _ rfl

theorem hasKey_contextPairs_map (self : GeoAdmin) (env : Env) (cl : CL)
    (media : List String) (af : Option (List String)) :
    hasKey (contextPairs self env cl media af) "map" = false := rfl

theorem getKey_contextPairs_update_map (base : Ctx) (self : GeoAdmin)
    (env : Env) (cl : CL) (media : List String) (af : Option (List String))
    (hbase : getKey base "map" = none) :
    getKey (updateDict base (contextPairs self env cl media af)) "map"
      = none := by
  rw [getKey_updateDict_notMem _ _ _ (hasKey_contextPairs_map self env cl media af)]
  exact hbase

theorem buildContext_map_none (self : GeoAdmin) (env : Env) (cl : CL)
    (formset : Option FormsetData) (actions : Bool) (extra : Ctx)
    (h1 : hasKey env.eachContext "map" = false)
    (h2 : hasKey extra "map" = false) :
    getKey (buildContext self env cl formset actions (some extra)) "map"
      = none := by
  rw [buildContext_eq, getKey_updateDict_notMem _ _ _ h2]
  exact getKey_contextPairs_update_map env.eachContext self env cl _ _
    (hasKey_false_getKey_none _ _ h1)

theorem buildContext_media_shape (self : GeoAdmin) (env : Env) (cl : CL)
    (formset : Option FormsetData) (actions : Bool) (extra : Ctx)
    (h3 : ∀ v, ("media", v) ∈ extra → ∃ lst, v = CtxVal.mediaV lst) :
    ∃ base, getKey (buildContext self env cl formset actions (some extra))
      "media" = some (.mediaV base) := by
  rw [buildContext_eq]
  rcases getKey_updateDict_cases (updateDict env.eachContext
    (contextPairs self env cl
      (match formset with
       | some fs => if fs.truthy then self.media ++ fs.media else self.media
       | none => self.media)
      (if actions then some env.actionChoices else none))) extra "media" with
    h | ⟨v, hv, hmem⟩
  · exact ⟨_, by rw [h]; exact getKey_contextPairs_update_media _ _ _ _ _ _⟩
  · obtain ⟨lst, rfl⟩ := h3 v hmem
    exact ⟨lst, hv⟩

theorem addMap_getKey (ctx0 : Ctx) (m : InfoMap) (base : List String)
    (hmedia : getKey ctx0 "media" = some (.mediaV base)) :
    getKey (addMapToContext ctx0 m) "map" = some (.infoMapV m) ∧
    getKey (addMapToContext ctx0 m) "media"
      = some (.mediaV (base ++ m.media)) := by
  unfold addMapToContext
  rw [hmedia]
  constructor
  · exact getKey_setKey_self _ _ _
  · rw [getKey_setKey_ne _ _ _ _ (by decide)]
    exact getKey_setKey_self _ _ _

/-! Section: Claims about changelist_view -/

/-- C2 counterexample: an exception other than IncorrectLookupParameters
raised while the ChangeList is constructed propagates out of
`changelist_view` and produces no redirect, against the claim that any
exception during lookup parameter parsing leads to a redirect carrying the
error flag. -/
theorem C2_counterexample :
    envOtherExc.changeList = .error (.other "ValueError") ∧
    changelist_view sampleAdmin envOtherExc sampleRequest none =
      .exception "ValueError" ∧
    ∀ url, changelist_view sampleAdmin envOtherExc sampleRequest none ≠
      .redirect url := by
  have hval : changelist_view sampleAdmin envOtherExc sampleRequest none =
      .exception "ValueError" := rfl
  exact ⟨rfl, hval, fun url hc => Response.noConfusion (hval.symm.trans hc)⟩

/-- C2 (amended): IncorrectLookupParameters raised while the ChangeList is
constructed leads to a redirect to the changelist page carrying the error
flag when the flag is not already among the GET parameters, and to the
invalid setup page when it is; an exception of any other kind propagates. -/
theorem C2_amended_lookup_errors (self : GeoAdmin) (env : Env)
    (request : Request) (extraContext : Option Ctx) (e : ExcKind)
    (hperm : env.hasChangePermission = true)
    (hexc : env.changeList = .error e) :
    changelist_view self env request extraContext =
      match e with
      | .incorrectLookupParameters =>
          if hasKey request.get ERROR_FLAG then
            .simpleTemplate "admin/invalid_setup.html"
              [("title", .str (gettext "Database error"))]
          else .redirect (request.path ++ "?" ++ ERROR_FLAG ++ "=1")
      | .other n => .exception n := by
  cases e with
  | incorrectLookupParameters =>
      by_cases hf : hasKey request.get ERROR_FLAG <;>
        simp [changelist_view, changelist_common, hexc, hperm, hf]
  | other n =>
      simp [changelist_view, changelist_common, hexc, hperm]

/-- C2 amended witness: with the flag already present, a bad lookup yields the
invalid setup page. -/
theorem C2_amended_witness :
    changelist_view sampleAdmin envBadLookup requestWithFlag none =
      (if hasKey requestWithFlag.get ERROR_FLAG then
        Response.simpleTemplate "admin/invalid_setup.html"
          [("title", .str (gettext "Database error"))]
      else .redirect (requestWithFlag.path ++ "?" ++ ERROR_FLAG ++ "=1")) :=
  C2_amended_lookup_errors sampleAdmin envBadLookup requestWithFlag none
    .incorrectLookupParameters rfl rfl

/-- C10: when IncorrectLookupParameters is raised and the error flag is
already among the GET parameters, `changelist_view` answers with the invalid
setup page titled Database error instead of issuing a redirect with the error
flag. -/
theorem C10_database_error_page (self : GeoAdmin) (env : Env)
    (request : Request) (extraContext : Option Ctx)
    (hperm : env.hasChangePermission = true)
    (hexc : env.changeList = .error .incorrectLookupParameters)
    (hflag : hasKey request.get ERROR_FLAG = true) :
    changelist_view self env request extraContext =
      .simpleTemplate "admin/invalid_setup.html"
        [("title", .str (gettext "Database error"))] ∧
    ∀ url, changelist_view self env request extraContext ≠ .redirect url := by
  have h1 : changelist_view self env request extraContext =
      .simpleTemplate "admin/invalid_setup.html"
        [("title", .str (gettext "Database error"))] := by
    unfold changelist_view changelist_common
    rw [hexc, hperm]
    simp [hflag]
  exact ⟨h1, fun url hc => Response.noConfusion (h1.symm.trans hc)⟩

/-- C10 witness: the sample bad lookup with the flag present renders the
database error page. -/
theorem C10_witness :
    changelist_view sampleAdmin envBadLookup requestWithFlag none =
      .simpleTemplate "admin/invalid_setup.html"
        [("title", .str (gettext "Database error"))] ∧
    ∀ url, changelist_view sampleAdmin envBadLookup requestWithFlag none ≠
      .redirect url :=
  C10_database_error_page sampleAdmin envBadLookup requestWithFlag none
    rfl rfl rfl

/-- C5: `changelist_view` answers exactly as the parent changelist view on
every request; the only difference is that when the parent renders the
template and a changelist map exists, the context additionally carries the
map under the key map and the media of the map merged into the media value;
every other response, permission denial, action dispatch, bulk edit redirect
and lookup error handling included, is unchanged. -/
theorem C5_refines_parent_view (self : GeoAdmin) (env : Env)
    (request : Request) (extraContext : Option Ctx) :
    match parent_changelist_view self env request extraContext with
    | .template ts ctx =>
        match mapFor self env with
        | some m => changelist_view self env request extraContext =
            .template ts (addMapToContext ctx m)
        | none => changelist_view self env request extraContext =
            .template ts ctx
    | r => changelist_view self env request extraContext = r := by
  cases hc : changelist_common self env request extraContext with
  | error r =>
      have hp : parent_changelist_view self env request extraContext = r := by
        unfold parent_changelist_view
        rw [hc]
      have hg : changelist_view self env request extraContext = r := by
        unfold changelist_view
        rw [hc]
      have hnt := common_error_shape self env request extraContext r hc
      rw [hp]
      cases r <;> first
        | exact hg
        | exact absurd rfl (hnt _ _)
  | ok p =>
      obtain ⟨cl, ctx⟩ := p
      obtain ⟨hperm, hcl, hafter⟩ :=
        common_ok_shape self env request extraContext cl ctx hc
      have hp : parent_changelist_view self env request extraContext =
          .template (templateList self) ctx := by
        unfold parent_changelist_view
        rw [hc]
      have hmf : mapFor self env = get_changelist_map self cl none := by
        unfold mapFor
        rw [hcl]
      rw [hp, hmf]
      cases hm : get_changelist_map self cl none with
      | some m =>
          show changelist_view self env request extraContext =
            .template (templateList self) (addMapToContext ctx m)
          simp only [changelist_view, hc, hm]
      | none =>
          show changelist_view self env request extraContext =
            .template (templateList self) ctx
          simp only [changelist_view, hc, hm]

/-- C7: the context handed to the changelist template holds the InfoMap under
the key map, with the media of the map merged into the media value, exactly
when `get_changelist_map` produces a map; when the list map is not set,
`get_changelist_map` is none and no map key is added to the context. -/
theorem C7_map_context_key (self : GeoAdmin) (env : Env) (request : Request)
    (extra : Ctx) (cl : CL) (ts : List String) (ctx : Ctx)
    (hcl : env.changeList = .ok cl)
    (hview : changelist_view self env request (some extra) = .template ts ctx)
    (h1 : hasKey env.eachContext "map" = false)
    (h2 : hasKey extra "map" = false)
    (h3 : ∀ v, ("media", v) ∈ extra → ∃ lst, v = CtxVal.mediaV lst) :
    (match get_changelist_map self cl none with
     | some m =>
        getKey ctx "map" = some (.infoMapV m) ∧
        ∃ ctx0 base,
          changelist_after_cl self env request (some extra) cl = .ok ctx0 ∧
          getKey ctx0 "media" = some (.mediaV base) ∧
          getKey ctx "media" = some (.mediaV (base ++ m.media))
     | none => getKey ctx "map" = none) ∧
    (self.list_map.isEmpty = true → get_changelist_map self cl none = none) := by
  have hc2 : self.list_map.isEmpty = true →
      get_changelist_map self cl none = none := by
    intro h
    unfold get_changelist_map
    rw [h]
    rfl
  refine ⟨?_, hc2⟩
  cases hc : changelist_common self env request (some extra) with
  | error r =>
      have hg : changelist_view self env request (some extra) = r := by
        unfold changelist_view
        rw [hc]
      rw [hg] at hview
      exact absurd hview (common_error_shape self env request (some extra) r hc
        ts ctx)
  | ok p =>
      obtain ⟨cl0, ctxb⟩ := p
      obtain ⟨hperm, hcl0, hafter⟩ :=
        common_ok_shape self env request (some extra) cl0 ctxb hc
      obtain rfl : cl0 = cl := by
        rw [hcl0] at hcl
        exact Except.ok.inj hcl
      obtain ⟨formset, hctxb⟩ :=
        after_cl_ok_shape self env request (some extra) cl0 ctxb hafter
      have hmapb : getKey ctxb "map" = none := by
        rw [hctxb]
        exact buildContext_map_none self env cl0 formset env.actions extra h1 h2
      obtain ⟨base, hmediab⟩ : ∃ base, getKey ctxb "media"
          = some (.mediaV base) := by
        rw [hctxb]
        exact buildContext_media_shape self env cl0 formset env.actions extra h3
      cases hm : get_changelist_map self cl0 none with
      | some m =>
          have hg : changelist_view self env request (some extra) =
              .template (templateList self) (addMapToContext ctxb m) := by
            simp only [changelist_view, hc, hm]
          rw [hg] at hview
          obtain ⟨hts, hctx⟩ := Response.template.inj hview
          subst hctx
          obtain ⟨hk1, hk2⟩ := addMap_getKey ctxb m base hmediab
          exact ⟨hk1, ctxb, base, hafter, hmediab, hk2⟩
      | none =>
          have hg : changelist_view self env request (some extra) =
              .template (templateList self) ctxb := by
            simp only [changelist_view, hc, hm]
          rw [hg] at hview
          obtain ⟨hts, hctx⟩ := Response.template.inj hview
          subst hctx
          exact hmapb

/-- C7 witness: the sample GET call renders the template with the map under
the key map and the media merged. -/
theorem C7_witness :
    (match get_changelist_map sampleAdmin sampleCL none with
     | some m =>
        getKey sampleCtx "map" = some (.infoMapV m) ∧
        ∃ ctx0 base,
          changelist_after_cl sampleAdmin sampleEnv sampleRequest (some [])
            sampleCL = .ok ctx0 ∧
          getKey ctx0 "media" = some (.mediaV base) ∧
          getKey sampleCtx "media" = some (.mediaV (base ++ m.media))
     | none => getKey sampleCtx "map" = none) ∧
    (sampleAdmin.list_map.isEmpty = true →
      get_changelist_map sampleAdmin sampleCL none = none) :=
  C7_map_context_key sampleAdmin sampleEnv sampleRequest [] sampleCL
    (templateList sampleAdmin) sampleCtx rfl rfl rfl rfl
    (fun v h => absurd h (List.not_mem_nil _))
